import Mathlib

/-!
Verification of the CSV performance-analyzer core (csv_analyzer.py) against its
specification.  Strings are modelled as `List Char`; absent values (Python
`None` / pandas `NaN`) as `Option`/a dedicated cell constructor; floats as `ℚ`
(not-a-number is modelled by `Option.none`).  Character classes (`str.isdigit`,
`str.strip`, regex `\d`) are modelled over ASCII.
-/

/-- ASCII model of Python's per-character `str.isdigit`. -/
def pyIsDigit (c : Char) : Bool := '0' ≤ c && c ≤ '9'

/-- ASCII model of the whitespace stripped by Python's `str.strip()`. -/
def pyIsSpace (c : Char) : Bool :=
  c == ' ' || c == '\t' || c == '\n' || c == '\r' || c == Char.ofNat 11 || c == Char.ofNat 12

/-- Python `str.strip()`: remove leading and trailing whitespace. -/
def pyStrip (l : List Char) : List Char :=
  ((l.dropWhile pyIsSpace).reverse.dropWhile pyIsSpace).reverse

/-- Python `str.replace(a, b)` for single characters. -/
def replaceChar (a b : Char) (l : List Char) : List Char :=
  l.map (fun c => if c = a then b else c)

/-- Python `str.replace(a, '')` for a single character. -/
def removeChar (a : Char) (l : List Char) : List Char :=
  l.filter (fun c => c ≠ a)

/-- The non-breaking space character U+00A0. -/
def nbspChar : Char := Char.ofNat 160

/-- The apostrophe character. -/
def aposChar : Char := Char.ofNat 39

/-- `s.rfind(',') > s.rfind('.')`, assuming both occur: the last of the two
separators occurring in `s` is a comma. -/
def lastSepIsComma (l : List Char) : Bool :=
  match l.reverse.find? (fun c => c == ',' || c == '.') with
  | some c => c == ','
  | none => false

/-- Embedding of `_normalize_numeric_cell` (csv_analyzer.py lines 52-91) on
string values.  Mirrors the source statement by statement. -/
def _normalize_numeric_cell (val : List Char) : List Char :=
  let s0 := pyStrip (replaceChar nbspChar ' ' val)
  if s0.isEmpty then val
  else
    let hasSign := s0.head? == some '+' || s0.head? == some '-'
    let sign : List Char := if hasSign then [s0.headD ' '] else []
    let s1 := if hasSign then s0.tail else s0
    let s2 := removeChar ' ' s1
    if s2.any pyIsDigit then
      let s3 :=
        if s2.any (· == '.') && s2.any (· == ',') then
          if lastSepIsComma s2 then replaceChar ',' '.' (removeChar '.' s2)
          else removeChar ',' s2
        else if s2.any (· == ',') && !(s2.any (· == '.')) then
          if s2.count ',' == 1 then replaceChar ',' '.' s2
          else
            let parts := s2.splitOn ','
            let dec := parts.getLastD []
            if !dec.isEmpty && dec.all pyIsDigit then
              removeChar '.' parts.dropLast.flatten ++ '.' :: dec
            else removeChar ',' s2
        else s2
      sign ++ removeChar aposChar s3
    else s2

/-- A canonical decimal-point numeric literal: optional single sign, a nonempty
run of digits, optionally followed by a dot and a nonempty run of digits. -/
def canonicalNumeric (l : List Char) : Bool :=
  let core := match l with
    | c :: rest => if c == '+' || c == '-' then rest else l
    | [] => []
  let a := core.takeWhile pyIsDigit
  let b := core.dropWhile pyIsDigit
  (!a.isEmpty) &&
    (b.isEmpty || (b.head? == some '.' && !b.tail.isEmpty && b.tail.all pyIsDigit))

/-- The sign-stripping step of `_normalize_numeric_cell` (lines 60-62): drop a
single leading `+`/`-`. -/
def dropLeadingSign (l : List Char) : List Char :=
  match l with
  | c :: rest => if c == '+' || c == '-' then rest else l
  | [] => []

/-- Embedding of `_normalize` (csv_analyzer.py lines 93-95): strip, lowercase,
keep only `[a-z0-9]`. -/
def _normalize (s : List Char) : List Char :=
  ((pyStrip s).map Char.toLower).filter (fun c => ('a' ≤ c && c ≤ 'z') || pyIsDigit c)

/-- Python's substring test `needle in hay`. -/
def containsSub (hay needle : List Char) : Bool :=
  hay.tails.any (fun t => needle.isPrefixOf t)

/-- Embedding of `find_column` (csv_analyzer.py lines 97-110).  The dict
comprehension `{_normalize(c): c for c in df.columns}` lets later columns
overwrite earlier ones on normalized-key collisions, hence the reversed lookup
in the exact pass.  `none` models the Python `None` (`NOT_FOUND`) result. -/
def find_column (cols cands : List (List Char)) : Option (List Char) :=
  match cands.find? (fun cand => cols.any (fun c => _normalize c == _normalize cand)) with
  | some cand => cols.reverse.find? (fun c => _normalize c == _normalize cand)
  | none =>
      cols.find? (fun c => cands.any (fun cand => containsSub (_normalize c) (_normalize cand)))

/-- Delimiter auto-detection (csv_analyzer.py line 149):
`sep = "," if header_line.count(",") > header_line.count(";") else ";"`. -/
def detect_sep (header : List Char) : Char :=
  if header.count ';' < header.count ',' then ',' else ';'

/-- Per-field cleaning `val.strip('"').strip()` (lines 152 and 166). -/
def cleanField (f : List Char) : List Char :=
  pyStrip (((f.dropWhile (· == '"')).reverse.dropWhile (· == '"')).reverse)

/-- The fields a data line splits into, before length reconciliation
(line 166). -/
def rowFields (sep : Char) (line : List Char) : List (Option (List Char)) :=
  (line.splitOn sep).map (fun f => some (cleanField f))

/-- Row-length reconciliation (lines 166-174): split, clean, then pad with
absent values up to the header length or truncate down to it. -/
def parseRow (sep : Char) (n : Nat) (line : List Char) : List (Option (List Char)) :=
  let fields := rowFields sep line
  fields.take n ++ List.replicate (n - fields.length) none

/-- The stripped header line (line 148); `[]` for empty input. -/
def headerLine (lines : List (List Char)) : List Char := pyStrip (lines.headD [])

/-- Detected separator of a file's lines. -/
def sepOf (lines : List (List Char)) : Char := detect_sep (headerLine lines)

/-- Parsed header column names (line 152). -/
def headerCols (lines : List (List Char)) : List (List Char) :=
  ((headerLine lines).splitOn (sepOf lines)).map cleanField

/-- The stripped, non-empty data lines (lines 159-162). -/
def dataLines (lines : List (List Char)) : List (List Char) :=
  (lines.tail.map pyStrip).filter (fun l => !l.isEmpty)

/-- All parsed, length-reconciled data rows (lines 159-176). -/
def parsedRows (lines : List (List Char)) : List (List (Option (List Char))) :=
  (dataLines lines).map (parseRow (sepOf lines) (headerCols lines).length)

/-- The three figures of the diagnostic line 203: loaded line count, total data
line count, and exception-skipped line count.  `str.strip`/`str.split` cannot
raise, so the `except` branch of lines 178-180 is dead and the skipped count is
always `0`. -/
def loadDiag (lines : List (List Char)) : Nat × Nat × Nat :=
  ((parsedRows lines).length, lines.tail.length, 0)

/-- Number of data rows whose split field count differs from the header length,
i.e. rows that get padded or truncated. -/
def affectedRowCount (lines : List (List Char)) : Nat :=
  (dataLines lines).countP
    (fun l => !((l.splitOn (sepOf lines)).length == (headerCols lines).length))

/-- Numeric value of a digit string (most significant first). -/
def digitsToNat (l : List Char) : Nat :=
  l.foldl (fun acc c => 10 * acc + (c.toNat - 48)) 0

/-- Parse an unsigned decimal `digits [. digits]` where at least one digit run
is nonempty; returns the value and the unconsumed remainder. -/
def parseUnsignedDec (s : List Char) : Option (ℚ × List Char) :=
  let ip := s.takeWhile pyIsDigit
  let r1 := s.dropWhile pyIsDigit
  match r1 with
  | '.' :: r2 =>
      let fp := r2.takeWhile pyIsDigit
      let r3 := r2.dropWhile pyIsDigit
      if ip.isEmpty && fp.isEmpty then none
      else some ((digitsToNat ip : ℚ) + (digitsToNat fp : ℚ) / (10 ^ fp.length), r3)
  | _ => if ip.isEmpty then none else some ((digitsToNat ip : ℚ), r1)

/-- Model of the numeric coercion `pd.to_numeric(·, errors='coerce')` applied
to a single string (lines 194 and 228/233): an optionally signed decimal
literal with optional exponent, surrounded by optional whitespace; anything
else (including `NaN` spellings) coerces to not-a-number, modelled as `none`.
Infinities are outside the rational model and also map to `none`. -/
def parseDecimal (s : List Char) : Option ℚ :=
  let t := pyStrip s
  let sgn : ℚ := match t.head? with | some '-' => -1 | _ => 1
  let t1 := match t with
    | '-' :: r => r
    | '+' :: r => r
    | _ => t
  match parseUnsignedDec t1 with
  | none => none
  | some (m, rest) =>
    match rest with
    | [] => some (sgn * m)
    | e :: r2 =>
      if e == 'e' || e == 'E' then
        let eneg : Bool := r2.head? == some '-'
        let r3 := match r2 with
          | '-' :: r => r
          | '+' :: r => r
          | _ => r2
        let ed := r3.takeWhile pyIsDigit
        let r4 := r3.dropWhile pyIsDigit
        if ed.isEmpty || !r4.isEmpty then none
        else some (sgn * m * (if eneg then (1 : ℚ) / 10 ^ digitsToNat ed else (10 : ℚ) ^ digitsToNat ed))
      else none

/-- A cell of the typed table: absent (None/NaN), a string, or a number. -/
inductive TCell where
  | absent : TCell
  | str : List Char → TCell
  | num : ℚ → TCell
deriving DecidableEq, BEq

/-- `df.replace("", None)` on one cell (line 188). -/
def blankToNone : Option (List Char) → Option (List Char)
  | some [] => none
  | x => x

/-- The per-cell normalization pass `df[c].map(_normalize_numeric_cell)` of
line 193 (`Series.map` applies the function to NaN too, and the function
returns non-strings unchanged, so absent cells stay absent). -/
def normColumn (cells : List (Option (List Char))) : List (Option (List Char)) :=
  cells.map (Option.map _normalize_numeric_cell)

/-- The column-wide coercion attempt `pd.to_numeric(df[c], errors='coerce')`
of line 194 applied to the normalized cells; `none` is NaN. -/
def coerceColumn (cells : List (Option (List Char))) : List (Option ℚ) :=
  (normColumn cells).map (fun oc => oc.bind parseDecimal)

/-- PATCH 1 applied to one column (lines 190-196): normalize each cell, attempt
column-wide numeric coercion, keep the coerced column iff at least one cell
coerced (line 195); otherwise keep the normalized strings. -/
def processColumn (cells : List (Option (List Char))) : List TCell :=
  if (coerceColumn cells).any Option.isSome then
    (coerceColumn cells).map
      (fun o => match o with | some q => TCell.num q | none => TCell.absent)
  else
    (normColumn cells).map
      (fun o => match o with | some s => TCell.str s | none => TCell.absent)

/-- The raw columns of the parsed table, header name paired with the cells in
row order (line 186). -/
def rawColumns (lines : List (List Char)) : List (List Char × List (Option (List Char))) :=
  let hdr := headerCols lines
  let rows := parsedRows lines
  (List.range hdr.length).map (fun j => (hdr.getD j [], rows.map (fun r => r.getD j none)))

/-- Whether a list of column names contains a duplicate. -/
def hasDupNames : List (List Char) → Bool
  | [] => false
  | x :: xs => xs.contains x || hasDupNames xs

/-- The columns surviving the first `dropna(axis=1, how="all")` (line 187):
those with at least one present cell. -/
def keptRawColumns (lines : List (List Char)) : List (List Char × List (Option (List Char))) :=
  (rawColumns lines).filter (fun p => p.2.any Option.isSome)

/-- The table after `replace("", None)` (line 188) and PATCH 1 (lines
190-196), before the final `dropna`. -/
def processedColumns (lines : List (List Char)) : List (List Char × List TCell) :=
  (keptRawColumns lines).map (fun p => (p.1, processColumn (p.2.map blankToNone)))

/-- Embedding of the primary strategy of `load_csv` (csv_analyzer.py lines
137-205): header/delimiter detection, row normalization, the first
`dropna(axis=1, how="all")`, `replace("", None)`, PATCH 1 normalization plus
coercion, and the final `dropna(axis=1, how='all')`.  `none` models every way
the primary strategy fails and control passes to the unmodelled `pd.read_csv`
fallback of lines 207-224: the raised errors on empty input (lines 144-145,
182-183), and the `AttributeError` at line 191 when a surviving header name is
duplicated (`df[c]` is then a DataFrame, which has no `.dtype`). -/
def load_csv (lines : List (List Char)) : Option (List (List Char × List TCell)) :=
  if lines.isEmpty then none
  else if (parsedRows lines).isEmpty then none
  else if hasDupNames ((keptRawColumns lines).map Prod.fst) then none
  else
    some ((processedColumns lines).filter (fun p => p.2.any (fun c => !(c == TCell.absent))))

/-- Coercion of one typed cell by `pd.to_numeric(series, errors="coerce")`
followed by `dropna()` (lines 228 and 233): numbers survive, strings are
parsed, absent cells are dropped. -/
def coerceCell : TCell → Option ℚ
  | TCell.absent => none
  | TCell.str s => parseDecimal s
  | TCell.num q => some q

/-- The numeric values of a column that survive coercion and `dropna`. -/
def numericValues (col : List TCell) : List ℚ :=
  col.filterMap coerceCell

/-- Insertion into a sorted list (ascending). -/
def insertSorted (x : ℚ) : List ℚ → List ℚ
  | [] => [x]
  | y :: t => if x ≤ y then x :: y :: t else y :: insertSorted x t

/-- Ascending sort, as used by `np.percentile` over the sample. -/
def sortQ (l : List ℚ) : List ℚ := l.foldr insertSorted []

/-- Floor of a rational, computably. -/
def ratFloor (q : ℚ) : ℤ := Int.fdiv q.num (q.den : ℤ)

/-- Embedding of `mean` (csv_analyzer.py lines 231-234): arithmetic mean of the
surviving numeric values, not-a-number (`none`) when none survive. -/
def mean (col : List TCell) : Option ℚ :=
  let v := numericValues col
  if v.isEmpty then none else some (v.sum / (v.length : ℚ))

/-- Embedding of `p95` (csv_analyzer.py lines 226-229): `np.percentile(·, 95)`
with linear interpolation over the sorted values, not-a-number (`none`) when no
numeric values survive. -/
def p95 (col : List TCell) : Option ℚ :=
  let v := numericValues col
  if v.isEmpty then none
  else
    let ys := sortQ v
    let n := ys.length
    let pos : ℚ := (95 * ((n - 1 : Nat) : ℚ)) / 100
    let i : Nat := (ratFloor pos).toNat
    let lo := ys.getD i 0
    let hi := ys.getD (min (i + 1) (n - 1)) 0
    some (lo + (pos - (i : ℚ)) * (hi - lo))


/-- Case-insensitive equality of characters, as under `re.IGNORECASE`. -/
def ciEq (a b : Char) : Bool := a.toLower == b.toLower

/-- Match a literal (case-insensitively) at the head of the input, returning
the remainder. -/
def dropLitCI : List Char → List Char → Option (List Char)
  | [], s => some s
  | _ :: _, [] => none
  | p :: ps, c :: cs => if ciEq p c then dropLitCI ps cs else none

/-- Longest leading digit run and the remainder (`\d+`, greedy). -/
def takeDigits (s : List Char) : List Char × List Char :=
  (s.takeWhile pyIsDigit, s.dropWhile pyIsDigit)

/-- `[AB]` under `re.IGNORECASE`. -/
def isAB (c : Char) : Bool := ciEq c 'A' || ciEq c 'B'

/-- The lazy `.*?(?:Messung|Run|Lauf)` part of the filename pattern: find the
first position where one of the three keywords matches (alternation tried in
source order), returning the remainder after the keyword.  The lazy `.*?`
cannot cross a newline. -/
def keywordAfter : List Char → Option (List Char)
  | [] => none
  | c :: rest =>
    match dropLitCI "Messung".data (c :: rest) with
    | some r => some r
    | none =>
      match dropLitCI "Run".data (c :: rest) with
      | some r => some r
      | none =>
        match dropLitCI "Lauf".data (c :: rest) with
        | some r => some r
        | none => if c == '\n' then none else keywordAfter rest

/-- The trailing `[_-]?(?P<run>\d+)?` of the filename pattern: both groups are
optional and greedy, so this always succeeds; the capture is `none` when no
digits follow. -/
def runGroup (s : List Char) : Option (List Char) :=
  let s1 := match s with
    | c :: r => if c == '_' || c == '-' then r else s
    | [] => s
  let d := (takeDigits s1).1
  if d.isEmpty then none else some d

/-- The `.*?(?P<variant>[AB]).*?(?:Messung|Run|Lauf)[_-]?(?P<run>\d+)?` tail of
the pattern, with backtracking over the `[AB]` occurrences: the first `A`/`B`
after which a keyword still occurs wins. -/
def variantAfter : List Char → Option (Char × Option (List Char))
  | [] => none
  | c :: rest =>
    if isAB c then
      match keywordAfter rest with
      | some r => some (c, runGroup r)
      | none => if c == '\n' then none else variantAfter rest
    else if c == '\n' then none else variantAfter rest

/-- Attempt to match the full pattern
`EXP[_-]?(?P<scene>\d+).*?(?P<variant>[AB]).*?(?:Messung|Run|Lauf)[_-]?(?P<run>\d+)?`
at the start of `s`, returning the three captures (run capture optional). -/
def matchFrom (s : List Char) : Option (List Char × Char × Option (List Char)) :=
  match dropLitCI "EXP".data s with
  | none => none
  | some r1 =>
    let r2 := match r1 with
      | c :: r => if c == '_' || c == '-' then r else r1
      | [] => r1
    let (sc, r3) := takeDigits r2
    if sc.isEmpty then none
    else (variantAfter r3).map (fun vr => (sc, vr.1, vr.2))

/-- `re.search`: try the pattern at every start position, leftmost match wins.
Fuel equals the remaining length, which is always sufficient. -/
def searchFuel : Nat → List Char → Option (List Char × Char × Option (List Char))
  | 0, _ => none
  | fuel + 1, s =>
    match matchFrom s with
    | some r => some r
    | none =>
      match s with
      | [] => none
      | _ :: t => searchFuel fuel t

/-- `re.search` of the filename pattern over a whole string. -/
def regexSearch (s : List Char) : Option (List Char × Char × Option (List Char)) :=
  searchFuel (s.length + 1) s

/-- Embedding of `parse_filename` (csv_analyzer.py lines 236-247): run the
pattern, then apply the per-group defaults scene `"1"`, variant `"?"`,
run `"1"`; the variant is upper-cased. -/
def parse_filename (name : List Char) : List Char × List Char × List Char :=
  match regexSearch name with
  | none => ("1".data, "?".data, "1".data)
  | some (sc, v, run) => (sc, [v.toUpper], run.getD "1".data)

/-- Decimal digit character for a value below ten. -/
def digitChar (d : Nat) : Char := Char.ofNat (48 + d)

/-- Decimal digit list of a natural number, with explicit fuel (the fuel is
always sufficient when at least the number itself). -/
def natDigitsFuel : Nat → Nat → List Char
  | 0, _ => []
  | fuel + 1, n => if n < 10 then [digitChar n] else natDigitsFuel fuel (n / 10) ++ [digitChar (n % 10)]

/-- Python `str(n)` for a natural number. -/
def natDigits (n : Nat) : List Char := natDigitsFuel (n + 1) n

/-- Round half to even to the nearest integer, the convention of Python's
`round` (modulo binary floating-point representation, which the rational model
abstracts from; the spec leaves the tie convention to the implementation). -/
def roundHalfEven (q : ℚ) : ℤ :=
  let f : ℤ := ratFloor q
  let r : ℚ := q - (f : ℚ)
  if r < 1/2 then f
  else if 1/2 < r then f + 1
  else if f % 2 = 0 then f else f + 1

/-- Chunks of three, cut from the left. -/
def revChunks3 : List Char → List (List Char)
  | [] => []
  | [a] => [[a]]
  | [a, b] => [[a, b]]
  | a :: b :: c :: rest => [a, b, c] :: revChunks3 rest

/-- Embedding of `group_with_nbsp` (csv_analyzer.py lines 297-303): the decimal
digits of `abs(int(n))` grouped in blocks of three from the right, joined with
non-breaking spaces, with a leading minus for negative `n`. -/
def group_with_nbsp (n : ℤ) : List Char :=
  let s := natDigits n.natAbs
  (if n < 0 then ['-'] else []) ++
    List.intercalate [nbspChar] (((revChunks3 s.reverse).map List.reverse).reverse)

/-- The three-digit zero-padded decimal part of `f"{rounded:.3f}"`. -/
def pad3 (m : Nat) : List Char :=
  let d := natDigits m
  List.replicate (3 - d.length) '0' ++ d

/-- Embedding of `format_decimal` (csv_analyzer.py lines 305-309) at three
decimals.  With `k` the integer numerator of the rounded value at scale 1000,
the f-string renders `int_part . dec_part`; Python's `int(int_part)` truncates
toward zero, so the sign of values rounding to magnitude below one is dropped
(`int("-0") = 0`). -/
def format_decimal (v : ℚ) : List Char :=
  let k : ℤ := roundHalfEven (v * 1000)
  let intPartVal : ℤ := if k < 0 then -((k.natAbs / 1000 : Nat) : ℤ) else ((k.natAbs / 1000 : Nat) : ℤ)
  group_with_nbsp intPartVal ++ ',' :: pad3 (k.natAbs % 1000)

/-- The labels formatted as integers (csv_analyzer.py line 311). -/
def integer_labels : List (List Char) :=
  ["N".data, "Draw Calls Ø [#]".data, "Primitives Ø [#]".data]

/-- Embedding of `format_number` (csv_analyzer.py lines 287-314).  A `none`
value models the non-finite (NaN) inputs rejected by `np.isfinite` and renders
as the empty string. -/
def format_number (label : List Char) (value : Option ℚ) : List Char :=
  match value with
  | none => []
  | some v =>
    if integer_labels.contains label then group_with_nbsp (roundHalfEven v)
    else format_decimal v



theorem replaceChar_eq_self (a b : Char) (l : List Char) (h : ∀ c ∈ l, c ≠ a) :
    replaceChar a b l = l := by
  unfold replaceChar
  have hid : ∀ c ∈ l, (if c = a then b else c) = id c := by
    intro c hc; simp [h c hc]
  rw [List.map_congr_left hid, List.map_id]

theorem removeChar_eq_self (a : Char) (l : List Char) (h : ∀ c ∈ l, c ≠ a) :
    removeChar a l = l := by
  unfold removeChar
  rw [List.filter_eq_self]
  intro c hc
  simpa using h c hc

theorem dropWhile_eq_self (p : Char → Bool) (l : List Char) (h : ∀ c ∈ l, p c = false) :
    l.dropWhile p = l := by
  cases l with
  | nil => rfl
  | cons c t => rw [List.dropWhile_cons, h c (List.mem_cons_self c t)]; simp

theorem pyStrip_eq_self (l : List Char) (h : ∀ c ∈ l, pyIsSpace c = false) :
    pyStrip l = l := by
  have h2 : ∀ c ∈ l.reverse, pyIsSpace c = false := fun c hc => h c (List.mem_reverse.mp hc)
  unfold pyStrip
  rw [dropWhile_eq_self _ _ h, dropWhile_eq_self _ _ h2, List.reverse_reverse]

theorem pyIsDigit_ne (c x : Char) (h : pyIsDigit c = true) (hx : pyIsDigit x = false) :
    c ≠ x := by
  rintro rfl; rw [h] at hx; cases hx

theorem pyIsSpace_eq_false_of_digit (c : Char) (h : pyIsDigit c = true) :
    pyIsSpace c = false := by
  cases hs : pyIsSpace c
  · rfl
  · exfalso
    simp only [pyIsSpace, Bool.or_eq_true, beq_iff_eq] at hs
    rcases hs with ((((rfl | rfl) | rfl) | rfl) | rfl) | rfl <;> exact absurd h (by decide)

theorem plain_char_facts (c : Char) (h : pyIsDigit c = true ∨ c = '.') :
    pyIsSpace c = false ∧ c ≠ nbspChar ∧ c ≠ ' ' ∧ c ≠ aposChar ∧ c ≠ ',' := by
  rcases h with h | rfl
  · exact ⟨pyIsSpace_eq_false_of_digit c h, pyIsDigit_ne c _ h (by decide),
      pyIsDigit_ne c _ h (by decide), pyIsDigit_ne c _ h (by decide),
      pyIsDigit_ne c _ h (by decide)⟩
  · exact ⟨by decide, by decide, by decide, by decide, by decide⟩

theorem normalize_fixed (sgn : List Char) (c0 : Char) (t : List Char)
    (hsgn : sgn = [] ∨ sgn = ['+'] ∨ sgn = ['-'])
    (hc0 : pyIsDigit c0 = true)
    (hchars : ∀ c ∈ c0 :: t, pyIsDigit c = true ∨ c = '.') :
    _normalize_numeric_cell (sgn ++ c0 :: t) = sgn ++ c0 :: t := by
  have hall : ∀ c ∈ c0 :: t,
      pyIsSpace c = false ∧ c ≠ nbspChar ∧ c ≠ ' ' ∧ c ≠ aposChar ∧ c ≠ ',' :=
    fun c hc => plain_char_facts c (hchars c hc)
  have hallf : ∀ c ∈ sgn ++ c0 :: t, pyIsSpace c = false ∧ c ≠ nbspChar := by
    intro c hc
    rcases List.mem_append.mp hc with hs | hs
    · rcases hsgn with rfl | rfl | rfl
      · cases hs
      · simp at hs; subst hs; exact ⟨by decide, by decide⟩
      · simp at hs; subst hs; exact ⟨by decide, by decide⟩
    · exact ⟨(hall c hs).1, (hall c hs).2.1⟩
  have hA : replaceChar nbspChar ' ' (sgn ++ c0 :: t) = sgn ++ c0 :: t :=
    replaceChar_eq_self _ _ _ (fun c hc => (hallf c hc).2)
  have hB : pyStrip (sgn ++ c0 :: t) = sgn ++ c0 :: t :=
    pyStrip_eq_self _ (fun c hc => (hallf c hc).1)
  have hdigE : ∃ x ∈ c0 :: t, pyIsDigit x = true := ⟨c0, List.mem_cons_self c0 t, hc0⟩
  have hmemc : ',' ∉ c0 :: t := fun hm => ((hall ',' hm).2.2.2.2) rfl
  have hE : removeChar ' ' (c0 :: t) = c0 :: t :=
    removeChar_eq_self _ _ (fun c hc => (hall c hc).2.2.1)
  have hI : removeChar aposChar (c0 :: t) = c0 :: t :=
    removeChar_eq_self _ _ (fun c hc => (hall c hc).2.2.2.1)
  have hcP : c0 ≠ '+' := pyIsDigit_ne c0 '+' hc0 (by decide)
  have hcM : c0 ≠ '-' := pyIsDigit_ne c0 '-' hc0 (by decide)
  have hnc1 : ¬(c0 = ',' ∨ ',' ∈ t) := by
    rintro (rfl | h)
    · exact hmemc (List.mem_cons_self _ _)
    · exact hmemc (List.mem_cons_of_mem _ h)
  rcases hsgn with rfl | rfl | rfl
  · rw [List.nil_append] at hA hB ⊢
    unfold _normalize_numeric_cell
    simp [hA, hB, hE, hI, hcP, hcM, hdigE, hmemc]
    intro _
    rw [if_neg (fun hand => hnc1 hand.2), if_neg (fun hand => hnc1 hand.1), hI]
  · rw [show (['+'] ++ c0 :: t : List Char) = '+' :: c0 :: t from rfl] at hA hB ⊢
    unfold _normalize_numeric_cell
    simp [hA, hB, hE, hI, hdigE, hmemc]
    rw [if_pos (Or.inl hc0), if_neg (fun hand => hnc1 hand.2),
      if_neg (fun hand => hnc1 hand.1), hI]
  · rw [show (['-'] ++ c0 :: t : List Char) = '-' :: c0 :: t from rfl] at hA hB ⊢
    unfold _normalize_numeric_cell
    simp [hA, hB, hE, hI, hdigE, hmemc]
    rw [if_pos (Or.inl hc0), if_neg (fun hand => hnc1 hand.2),
      if_neg (fun hand => hnc1 hand.1), hI]

theorem core_facts (core : List Char)
    (ha : core.takeWhile pyIsDigit ≠ [])
    (hb : core.dropWhile pyIsDigit = [] ∨
          ((core.dropWhile pyIsDigit).head? = some '.' ∧
           ∀ x ∈ (core.dropWhile pyIsDigit).tail, pyIsDigit x = true)) :
    ∃ c0 t, core = c0 :: t ∧ pyIsDigit c0 = true ∧
      ∀ c ∈ c0 :: t, pyIsDigit c = true ∨ c = '.' := by
  have hab : core.takeWhile pyIsDigit ++ core.dropWhile pyIsDigit = core :=
    List.takeWhile_append_dropWhile pyIsDigit core
  cases ha0 : core.takeWhile pyIsDigit with
  | nil => exact absurd ha0 ha
  | cons a0 at' =>
    have ha0mem : a0 ∈ core.takeWhile pyIsDigit := by rw [ha0]; exact List.mem_cons_self _ _
    have hd0 : pyIsDigit a0 = true := List.mem_takeWhile_imp ha0mem
    refine ⟨a0, at' ++ core.dropWhile pyIsDigit, ?_, hd0, ?_⟩
    · conv_lhs => rw [← hab, ha0]
      rfl
    · intro c hc
      rcases List.mem_cons.mp hc with rfl | hc
      · exact Or.inl hd0
      rcases List.mem_append.mp hc with hc | hc
      · refine Or.inl (List.mem_takeWhile_imp (l := core) (p := pyIsDigit) ?_)
        rw [ha0]; exact List.mem_cons_of_mem _ hc
      · rcases hb with hbe | ⟨hh, hall⟩
        · rw [hbe] at hc; cases hc
        · cases hbv : core.dropWhile pyIsDigit with
          | nil => rw [hbv] at hc; cases hc
          | cons b0 bt =>
            rw [hbv] at hh hall hc
            simp only [List.head?_cons, Option.some.injEq] at hh
            rcases List.mem_cons.mp hc with rfl | hc
            · exact Or.inr hh
            · exact Or.inl (hall c hc)

theorem canonical_fixed (s : List Char) (h : canonicalNumeric s = true) :
    _normalize_numeric_cell s = s := by
  cases s with
  | nil => simp [canonicalNumeric] at h
  | cons c rest =>
    by_cases hsign : c = '+' ∨ c = '-'
    · have hc' : (c == '+' || c == '-') = true := by
        rcases hsign with rfl | rfl <;> decide
      simp only [canonicalNumeric, hc', if_true, Bool.and_eq_true, Bool.or_eq_true,
        Bool.not_eq_true', beq_iff_eq, List.all_eq_true, List.isEmpty_iff,
        List.isEmpty_eq_false] at h
      obtain ⟨c0, t, hcore, hc0, hchars⟩ := core_facts rest h.1 (by
        rcases h.2 with h2 | h2
        · exact Or.inl h2
        · exact Or.inr ⟨h2.1.1, h2.2⟩)
      rcases hsign with rfl | rfl
      · have hnf := normalize_fixed ['+'] c0 t (Or.inr (Or.inl rfl)) hc0 hchars
        rw [hcore]; simpa using hnf
      · have hnf := normalize_fixed ['-'] c0 t (Or.inr (Or.inr rfl)) hc0 hchars
        rw [hcore]; simpa using hnf
    · have hc' : (c == '+' || c == '-') = false := by
        simp only [Bool.or_eq_false_iff, beq_eq_false_iff_ne, ne_eq]
        constructor
        · intro hx; exact hsign (Or.inl hx)
        · intro hx; exact hsign (Or.inr hx)
      simp only [canonicalNumeric, hc', Bool.false_eq_true, if_false, Bool.and_eq_true,
        Bool.or_eq_true, Bool.not_eq_true', beq_iff_eq, List.all_eq_true, List.isEmpty_iff,
        List.isEmpty_eq_false] at h
      obtain ⟨c0, t, hcore, hc0, hchars⟩ := core_facts (c :: rest) h.1 (by
        rcases h.2 with h2 | h2
        · exact Or.inl h2
        · exact Or.inr ⟨h2.1.1, h2.2⟩)
      have hnf := normalize_fixed [] c0 t (Or.inl rfl) hc0 hchars
      rw [hcore]; simpa using hnf

/-- C1: For the three documented locale shapes the numeric cell normalizer
yields the canonical decimal-point string: `"3,141"` normalizes to `"3.141"`,
the European grouped form `"12.345,678"` to `"12345.678"`, and the US grouped
form `"12,345.678"` to `"12345.678"`. -/
theorem C1_locale_shapes :
    _normalize_numeric_cell "3,141".data = "3.141".data ∧
    _normalize_numeric_cell "12.345,678".data = "12345.678".data ∧
    _normalize_numeric_cell "12,345.678".data = "12345.678".data := by decide

/-- C2 counterexample: the normalizer is not idempotent on all of its own
outputs.  On `"--a"` it yields `"-a"` (one leading sign is stripped from a
digit-free string), and renormalizing `"-a"` yields `"a"`. -/
theorem C2_counterexample :
    _normalize_numeric_cell (_normalize_numeric_cell "--a".data) ≠
      _normalize_numeric_cell "--a".data := by decide

/-- C2 (amended): the normalizer fixes every already-canonical numeric string
(optional single sign, nonempty digit run, optional dot plus nonempty digit
run), hence renormalizing such a string yields the same string.  Unrestricted
idempotence fails on digit-free inputs (see the counterexample). -/
theorem C2_idempotent_on_canonical (s : List Char) (h : canonicalNumeric s = true) :
    _normalize_numeric_cell (_normalize_numeric_cell s) = _normalize_numeric_cell s := by
  rw [canonical_fixed s h]
  exact canonical_fixed s h

theorem C2_idempotent_on_canonical_witness :
    _normalize_numeric_cell (_normalize_numeric_cell "-12.5".data) =
      _normalize_numeric_cell "-12.5".data :=
  C2_idempotent_on_canonical "-12.5".data (by decide)

/-- C5 counterexample: `"-x"` contains no digit, yet the normalizer does not
return it unchanged — it strips the leading sign and returns `"x"`. -/
theorem C5_counterexample :
    "-x".data.any pyIsDigit = false ∧
    _normalize_numeric_cell "-x".data ≠ "-x".data := by decide

theorem mem_dropWhile_sub (p : Char → Bool) (l : List Char) :
    ∀ x ∈ l.dropWhile p, x ∈ l := by
  induction l with
  | nil => simp
  | cons c t ih =>
    intro x hx
    rw [List.dropWhile_cons] at hx
    split at hx
    · exact List.mem_cons_of_mem _ (ih x hx)
    · exact hx

theorem mem_pyStrip_sub (l : List Char) : ∀ x ∈ pyStrip l, x ∈ l := by
  intro x hx
  unfold pyStrip at hx
  rw [List.mem_reverse] at hx
  have h1 := mem_dropWhile_sub pyIsSpace _ x hx
  rw [List.mem_reverse] at h1
  exact mem_dropWhile_sub pyIsSpace l x h1

theorem mem_replaceChar_cases (a b : Char) (l : List Char) :
    ∀ x ∈ replaceChar a b l, x = b ∨ x ∈ l := by
  intro x hx
  unfold replaceChar at hx
  rcases List.mem_map.mp hx with ⟨y, hy, hxy⟩
  by_cases hya : y = a
  · rw [hya, if_pos rfl] at hxy
    exact Or.inl hxy.symm
  · rw [if_neg hya] at hxy
    subst hxy
    exact Or.inr hy

theorem mem_removeChar_sub (a : Char) (l : List Char) : ∀ x ∈ removeChar a l, x ∈ l := by
  intro x hx
  exact (List.mem_filter.mp hx).1

/-- The early return of lines 55-57: a cell that strips to the empty string is
returned unchanged, digits or not. -/
theorem strip_empty_unchanged (s : List Char)
    (h : pyStrip (replaceChar nbspChar ' ' s) = []) :
    _normalize_numeric_cell s = s := by
  simp [_normalize_numeric_cell, h]

/-- The no-digit path of lines 58-68 evaluated in closed form: the result is
the NBSP-replaced, stripped string with one leading sign removed and all
spaces removed. -/
theorem no_digit_eval (s : List Char)
    (hd : s.any pyIsDigit = false)
    (hne : pyStrip (replaceChar nbspChar ' ' s) ≠ []) :
    _normalize_numeric_cell s =
      removeChar ' ' (dropLeadingSign (pyStrip (replaceChar nbspChar ' ' s))) := by
  have hsub0 : ∀ x ∈ pyStrip (replaceChar nbspChar ' ' s), x = ' ' ∨ x ∈ s := by
    intro x hx
    exact mem_replaceChar_cases _ _ _ x (mem_pyStrip_sub _ x hx)
  cases h0 : pyStrip (replaceChar nbspChar ' ' s) with
  | nil => exact absurd h0 hne
  | cons c t =>
    rw [h0] at hsub0
    have hsub1 : ∀ x ∈ dropLeadingSign (c :: t), x = ' ' ∨ x ∈ s := by
      intro x hx
      apply hsub0
      simp only [dropLeadingSign] at hx
      split at hx
      · exact List.mem_cons_of_mem _ hx
      · exact hx
    have hdig : (removeChar ' ' (dropLeadingSign (c :: t))).any pyIsDigit = false := by
      rw [List.any_eq_false]
      intro x hx
      rcases hsub1 x (mem_removeChar_sub _ _ x hx) with rfl | hx2
      · decide
      · rw [List.any_eq_false] at hd
        exact hd x hx2
    have hbP : ((some c == some '+' : Bool)) = (c == '+') := rfl
    have hbM : ((some c == some '-' : Bool)) = (c == '-') := rfl
    simp only [_normalize_numeric_cell, h0, List.isEmpty_cons, Bool.false_eq_true, if_false,
      List.head?_cons, List.headD_cons, List.tail_cons, hbP, hbM]
    by_cases hsgn : (c == '+' || c == '-') = true
    · have hdls : dropLeadingSign (c :: t) = t := by
        simp only [dropLeadingSign, hsgn, if_true]
      rw [hdls] at hdig
      simp only [hsgn, if_true, hdig, Bool.false_eq_true, if_false, hdls]
    · have hf : (c == '+' || c == '-') = false := by
        rwa [Bool.not_eq_true] at hsgn
      have hdls : dropLeadingSign (c :: t) = c :: t := by
        simp only [dropLeadingSign, hf, Bool.false_eq_true, if_false]
      rw [hdls] at hdig
      simp only [hf, Bool.false_eq_true, if_false, hdig, hdls]

/-- The no-digit path is the identity on inputs that are already fixed points
of stripping, space removal and sign stripping. -/
theorem no_digit_clean_fixed (s : List Char)
    (hd : s.any pyIsDigit = false)
    (hws : ∀ c ∈ s, pyIsSpace c = false ∧ c ≠ nbspChar ∧ c ≠ ' ')
    (hp : s.head? ≠ some '+') (hm : s.head? ≠ some '-') :
    _normalize_numeric_cell s = s := by
  have hA : replaceChar nbspChar ' ' s = s :=
    replaceChar_eq_self _ _ _ (fun c hc => (hws c hc).2.1)
  have hB : pyStrip s = s := pyStrip_eq_self _ (fun c hc => (hws c hc).1)
  have hE : removeChar ' ' s = s := removeChar_eq_self _ _ (fun c hc => (hws c hc).2.2)
  cases s with
  | nil => rfl
  | cons c t =>
    unfold _normalize_numeric_cell
    simp only [hA, hB, List.isEmpty_cons, Bool.false_eq_true, if_false]
    have hdE : ¬∃ x ∈ c :: t, pyIsDigit x = true := by
      rw [List.any_eq_false] at hd
      rintro ⟨x, hx, hxd⟩
      exact absurd hxd (by simpa using hd x hx)
    have hcP : ¬(c :: t).head? = some '+' := hp
    have hcM : ¬(c :: t).head? = some '-' := hm
    simp only [List.head?_cons, Option.some.injEq] at hcP hcM
    simp [hcP, hcM, hE, hdE]
    intro hx
    exfalso
    apply hdE
    rcases hx with hx | ⟨x, hx, hxd⟩
    · exact ⟨c, List.mem_cons_self _ _, hx⟩
    · exact ⟨x, List.mem_cons_of_mem _ hx, hxd⟩

/-- C5 (amended): a digit-free cell is not returned unchanged in general.
The exact behavior of the no-digit path: a cell that strips to the empty
string (empty or whitespace/NBSP only) is returned unchanged by the early
return; every other digit-free cell is mapped to its NBSP-replaced,
whitespace-stripped form with a single leading `+`/`-` removed and all
remaining spaces removed — so it is returned unchanged when it already has no
whitespace, no NBSP and no leading sign. -/
theorem C5_no_digit_behavior :
    (∀ s : List Char, pyStrip (replaceChar nbspChar ' ' s) = [] →
      _normalize_numeric_cell s = s) ∧
    (∀ s : List Char, s.any pyIsDigit = false →
      pyStrip (replaceChar nbspChar ' ' s) ≠ [] →
      _normalize_numeric_cell s =
        removeChar ' ' (dropLeadingSign (pyStrip (replaceChar nbspChar ' ' s)))) ∧
    (∀ s : List Char, s.any pyIsDigit = false →
      (∀ c ∈ s, pyIsSpace c = false ∧ c ≠ nbspChar ∧ c ≠ ' ') →
      s.head? ≠ some '+' → s.head? ≠ some '-' →
      _normalize_numeric_cell s = s) :=
  ⟨strip_empty_unchanged, no_digit_eval, no_digit_clean_fixed⟩

theorem C5_no_digit_behavior_witness :
    _normalize_numeric_cell "  ".data = "  ".data ∧
    _normalize_numeric_cell "-x".data =
      removeChar ' ' (dropLeadingSign (pyStrip (replaceChar nbspChar ' ' "-x".data))) ∧
    _normalize_numeric_cell "abc".data = "abc".data :=
  ⟨C5_no_digit_behavior.1 "  ".data (by decide),
   C5_no_digit_behavior.2.1 "-x".data (by decide) (by decide),
   C5_no_digit_behavior.2.2 "abc".data (by decide) (by decide) (by decide) (by decide)⟩

/-- C3 counterexample: on tied separator counts (including both zero) the
delimiter detector selects the semicolon, not the comma as claimed: `"ab"` has
zero commas and zero semicolons, `"a,b;c"` has one of each, and both detect as
`';'`. -/
theorem C3_counterexample :
    ("ab".data.count ',' = "ab".data.count ';' ∧ detect_sep "ab".data ≠ ',') ∧
    ("a,b;c".data.count ',' = "a,b;c".data.count ';' ∧ detect_sep "a,b;c".data ≠ ',') := by
  decide

/-- C3 (amended): delimiter detection counts `','` and `';'` in the header
line and returns one of the two; the comma is selected exactly when it is
strictly more frequent than the semicolon, so equal counts (including both
zero) select the semicolon. -/
theorem C3_sep_detection (line : List Char) :
    (detect_sep line = ',' ∨ detect_sep line = ';') ∧
    (detect_sep line = ',' ↔ line.count ';' < line.count ',') := by
  constructor
  · unfold detect_sep; split
    · exact Or.inl rfl
    · exact Or.inr rfl
  · unfold detect_sep; split
    · rename_i hlt; simp [hlt]
    · rename_i hge
      constructor
      · intro hc; exact absurd hc (by decide)
      · intro hlt; exact absurd hlt hge

/-- C6 counterexample: for the file `["a,b", "1,2", "3"]` exactly one row is
padded, yet the three reported diagnostic figures are loaded `2`, total `2`
and skipped `0` — none of them is the count `1` of padded/truncated rows, so
that count is not reported. -/
theorem C6_counterexample :
    affectedRowCount ["a,b".data, "1,2".data, "3".data] = 1 ∧
    loadDiag ["a,b".data, "1,2".data, "3".data] = (2, 2, 0) ∧
    (1 : Nat) ≠ 2 ∧ (1 : Nat) ≠ 0 := by decide

/-- C6 (amended): every parsed row has length exactly the header length; a row
whose field list is short is right-padded with absent values and a long one is
truncated to the header length.  (The loader's diagnostic reports kept/total
line counts and the exception-skip count, not the number of rows so
affected.) -/
theorem C6_row_length_invariant :
    (∀ lines r, r ∈ parsedRows lines → r.length = (headerCols lines).length) ∧
    (∀ sep n line, (rowFields sep line).length ≤ n →
        parseRow sep n line =
          rowFields sep line ++ List.replicate (n - (rowFields sep line).length) none) ∧
    (∀ sep n line, n ≤ (rowFields sep line).length →
        parseRow sep n line = (rowFields sep line).take n) := by
  refine ⟨?_, ?_, ?_⟩
  · intro lines r hr
    rcases List.mem_map.mp hr with ⟨l, _, rfl⟩
    unfold parseRow
    simp only [List.length_append, List.length_take, List.length_replicate]
    omega
  · intro sep n line h
    simp only [parseRow]
    rw [List.take_of_length_le h]
  · intro sep n line h
    simp only [parseRow]
    rw [Nat.sub_eq_zero_of_le h]
    simp

theorem C6_row_length_witness :
    ((parseRow ',' 2 "a,b,c".data).length = 2 ∧ (parseRow ',' 4 "a,b".data).length = 4) ∧
    parseRow ',' 4 "a,b".data =
      rowFields ',' "a,b".data ++ List.replicate (4 - (rowFields ',' "a,b".data).length) none ∧
    parseRow ',' 2 "a,b,c".data = (rowFields ',' "a,b,c".data).take 2 :=
  ⟨⟨by decide, by decide⟩,
   C6_row_length_invariant.2.1 ',' 4 "a,b".data (by decide),
   C6_row_length_invariant.2.2 ',' 2 "a,b,c".data (by decide)⟩

/-- C8: run-identity extraction is total and never raises: whenever the
pattern fails to match, all three groups fall back to their defaults
(scene `"1"`, variant `"?"`, run `"1"`); when it matches without a run group,
the run falls back to `"1"` independently; and on the documented examples,
`"EXP_1_A_Messung_1.csv"` yields `("1","A","1")` and `"weird_name.csv"`
yields `("1","?","1")`. -/
theorem C8_run_identity :
    parse_filename "EXP_1_A_Messung_1.csv".data = ("1".data, "A".data, "1".data) ∧
    parse_filename "weird_name.csv".data = ("1".data, "?".data, "1".data) ∧
    (∀ name, regexSearch name = none →
      parse_filename name = ("1".data, "?".data, "1".data)) ∧
    (∀ name sc v, regexSearch name = some (sc, v, none) →
      parse_filename name = (sc, [v.toUpper], "1".data)) := by
  refine ⟨by decide, by decide, ?_, ?_⟩
  · intro name h
    unfold parse_filename
    rw [h]
  · intro name sc v h
    unfold parse_filename
    rw [h]
    rfl

theorem C8_run_identity_witness :
    parse_filename "notes.txt".data = ("1".data, "?".data, "1".data) ∧
    parse_filename "EXP_2_B_Run.csv".data = ("2".data, ['B'.toUpper], "1".data) :=
  ⟨C8_run_identity.2.2.1 "notes.txt".data (by decide),
   C8_run_identity.2.2.2 "EXP_2_B_Run.csv".data "2".data 'B' (by decide)⟩

/-- C9: both aggregators first coerce and drop non-numeric/absent cells
(`numericValues`); when no numeric values remain, both `mean` and `p95`
return not-a-number (modelled as `none`) instead of raising; and on the
numeric column `[1,2,3,4,5]` the mean is exactly `3`, also when the values
arrive as cells among discarded non-numeric/absent ones. -/
theorem C9_aggregators :
    (∀ col : List TCell, numericValues col = [] → mean col = none ∧ p95 col = none) ∧
    mean [TCell.num 1, TCell.num 2, TCell.num 3, TCell.num 4, TCell.num 5] = some 3 ∧
    mean [TCell.str "abc".data, TCell.absent, TCell.num 1, TCell.num 5] = some 3 := by
  refine ⟨?_, by with_unfolding_all decide, by with_unfolding_all decide⟩
  intro col h
  constructor
  · simp [mean, h]
  · simp [p95, h]

theorem C9_aggregators_witness :
    mean [TCell.str "x".data, TCell.absent] = none ∧
    p95 [TCell.str "x".data, TCell.absent] = none :=
  C9_aggregators.1 [TCell.str "x".data, TCell.absent] (by decide)

/-- C4 counterexample: in the file `["h1,h2", "abc,1"]` no cell of column
`h1` coerces to a number (its only cell normalizes to `"abc"`, which fails
coercion), yet `h1` appears in the loaded typed table as a string column —
only all-absent columns are dropped. -/
theorem C4_counterexample :
    load_csv ["h1,h2".data, "abc,1".data] =
      some [("h1".data, [TCell.str "abc".data]), ("h2".data, [TCell.num 1])] ∧
    parseDecimal (_normalize_numeric_cell "abc".data) = none :=
  ⟨by with_unfolding_all decide, by decide⟩

/-- C4 (amended): after per-cell normalization, the column-wide coercion
attempt decides each kept column's shape — with at least one coercible cell
the column becomes numeric (every cell a number or absent), with none it keeps
its normalized string cells (every cell a string or absent) — and the final
`dropna(axis=1, how='all')` drops exactly the all-absent columns: a processed
column appears in the loaded table if and only if at least one of its cells is
non-absent.  In particular a column with no coercible cell survives, as a
string column, whenever it has a non-empty string cell. -/
theorem C4_column_type_and_drop :
    (∀ (lines : List (List Char)) (tbl : List (List Char × List TCell)),
      load_csv lines = some tbl →
      ∀ p : List Char × List TCell,
        p ∈ tbl ↔ p ∈ processedColumns lines ∧
          p.2.any (fun c => !(c == TCell.absent)) = true) ∧
    (∀ cells : List (Option (List Char)),
      (coerceColumn cells).any Option.isSome = true →
      ∀ c ∈ processColumn cells, c = TCell.absent ∨ ∃ q, c = TCell.num q) ∧
    (∀ cells : List (Option (List Char)),
      (coerceColumn cells).any Option.isSome = false →
      ∀ c ∈ processColumn cells, c = TCell.absent ∨ ∃ s, c = TCell.str s) := by
  refine ⟨?_, ?_, ?_⟩
  · intro lines tbl h p
    unfold load_csv at h
    split at h
    · simp at h
    · split at h
      · simp at h
      · split at h
        · simp at h
        · rw [Option.some_inj] at h
          subst h
          exact List.mem_filter
  · intro cells hc c hmem
    unfold processColumn at hmem
    rw [if_pos hc] at hmem
    rcases List.mem_map.mp hmem with ⟨o, _, rfl⟩
    cases o with
    | none => exact Or.inl rfl
    | some q => exact Or.inr ⟨q, rfl⟩
  · intro cells hc c hmem
    unfold processColumn at hmem
    rw [if_neg (by rw [hc]; exact Bool.false_ne_true)] at hmem
    rcases List.mem_map.mp hmem with ⟨o, _, rfl⟩
    cases o with
    | none => exact Or.inl rfl
    | some s0 => exact Or.inr ⟨s0, rfl⟩

theorem C4_column_type_and_drop_witness :
    ((("h1".data, [TCell.str "abc".data]) ∈
        [(("h1".data : List Char), [TCell.str "abc".data]), ("h2".data, [TCell.num 1])]) ↔
      (("h1".data, [TCell.str "abc".data]) ∈ processedColumns ["h1,h2".data, "abc,1".data] ∧
        ([TCell.str "abc".data].any (fun c => !(c == TCell.absent)) = true))) ∧
    (TCell.num 1 = TCell.absent ∨ ∃ q, TCell.num 1 = TCell.num q) ∧
    (TCell.str "abc".data = TCell.absent ∨ ∃ s, TCell.str "abc".data = TCell.str s) :=
  ⟨C4_column_type_and_drop.1 ["h1,h2".data, "abc,1".data]
      [("h1".data, [TCell.str "abc".data]), ("h2".data, [TCell.num 1])]
      (by with_unfolding_all decide) ("h1".data, [TCell.str "abc".data]),
   C4_column_type_and_drop.2.1 [some "1".data] (by with_unfolding_all decide) (TCell.num 1)
      (by rw [show processColumn [some "1".data] = [TCell.num 1] from by
            with_unfolding_all decide]
          exact List.mem_cons_self _ _),
   C4_column_type_and_drop.2.2 [some "abc".data] (by decide) (TCell.str "abc".data)
      (by rw [show processColumn [some "abc".data] = [TCell.str "abc".data] from by decide]
          exact List.mem_cons_self _ _)⟩

theorem find?_none_of_all {α} (p : α → Bool) (l : List α) (h : ∀ x ∈ l, p x = false) :
    l.find? p = none := by
  rw [List.find?_eq_none]
  intro x hx
  rw [h x hx]
  exact Bool.false_ne_true

theorem find?_append_first {α} (p : α → Bool) (l1 l2 : List α) (h : l1.find? p = none) :
    (l1 ++ l2).find? p = l2.find? p := by
  induction l1 with
  | nil => rfl
  | cons a t ih =>
    cases hpa : p a with
    | true => rw [List.find?_cons_of_pos _ hpa] at h; cases h
    | false =>
      rw [List.find?_cons_of_neg _ (by rw [hpa]; exact Bool.false_ne_true)] at h
      rw [List.cons_append, List.find?_cons_of_neg _ (by rw [hpa]; exact Bool.false_ne_true)]
      exact ih h

/-- C7: column resolution is layered exactly as specified.  (i) Exact pass:
if no candidate before `cand` has an exact normalized match among the table
columns and `cand` has one, the result is a table column whose normalized name
equals `cand`'s normalized form.  (ii) Fallback pass: if no candidate matches
exactly anywhere, the result is the first table column (in original order)
whose normalized name contains some candidate's normalized form as a
substring.  (iii) If neither pass matches, the result is the NOT_FOUND marker
`none` — no exception. -/
theorem C7_find_column :
    (∀ (cols cs1 cs2 : List (List Char)) (cand : List Char),
      (∀ c' ∈ cs1, ∀ col ∈ cols, _normalize col ≠ _normalize c') →
      (∃ col ∈ cols, _normalize col = _normalize cand) →
      ∃ col, find_column cols (cs1 ++ cand :: cs2) = some col ∧ col ∈ cols ∧
        _normalize col = _normalize cand) ∧
    (∀ (cands a1 a2 : List (List Char)) (c : List Char),
      (∀ cand ∈ cands, ∀ col ∈ a1 ++ c :: a2, _normalize col ≠ _normalize cand) →
      (∀ col ∈ a1, ∀ cand ∈ cands, containsSub (_normalize col) (_normalize cand) = false) →
      (∃ cand ∈ cands, containsSub (_normalize c) (_normalize cand) = true) →
      find_column (a1 ++ c :: a2) cands = some c) ∧
    (∀ cols cands,
      (∀ cand ∈ cands, ∀ col ∈ cols, _normalize col ≠ _normalize cand) →
      (∀ col ∈ cols, ∀ cand ∈ cands, containsSub (_normalize col) (_normalize cand) = false) →
      find_column cols cands = none) := by
  refine ⟨?_, ?_, ?_⟩
  · intro cols cs1 cs2 cand hmiss ⟨col0, hcol0, heq0⟩
    have h1 : cs1.find? (fun cand => cols.any (fun c => _normalize c == _normalize cand))
        = none := by
      apply find?_none_of_all
      intro c' hc'
      rw [List.any_eq_false]
      intro col hcol
      simp only [beq_iff_eq]
      exact hmiss c' hc' col hcol
    have h2 : (cs1 ++ cand :: cs2).find?
        (fun cand => cols.any (fun c => _normalize c == _normalize cand)) = some cand := by
      rw [find?_append_first _ _ _ h1]
      apply List.find?_cons_of_pos
      rw [List.any_eq_true]
      exact ⟨col0, hcol0, by rw [beq_iff_eq]; exact heq0⟩
    have h3 : (cols.reverse.find? (fun c => _normalize c == _normalize cand)).isSome := by
      rw [List.find?_isSome]
      exact ⟨col0, List.mem_reverse.mpr hcol0, by rw [beq_iff_eq]; exact heq0⟩
    obtain ⟨col, hcol⟩ := Option.isSome_iff_exists.mp h3
    refine ⟨col, ?_, ?_, ?_⟩
    · unfold find_column
      rw [h2]
      exact hcol
    · exact List.mem_reverse.mp (List.mem_of_find?_eq_some hcol)
    · have := List.find?_some hcol
      rwa [beq_iff_eq] at this
  · intro cands a1 a2 c hnoexact hfb ⟨cand0, hcand0, hsub0⟩
    have h1 : cands.find?
        (fun cand => (a1 ++ c :: a2).any (fun col => _normalize col == _normalize cand))
        = none := by
      apply find?_none_of_all
      intro cand hcand
      rw [List.any_eq_false]
      intro col hcol
      simp only [beq_iff_eq]
      exact hnoexact cand hcand col hcol
    have h2 : a1.find?
        (fun col => cands.any (fun cand => containsSub (_normalize col) (_normalize cand)))
        = none := by
      apply find?_none_of_all
      intro col hcol
      rw [List.any_eq_false]
      intro cand hcand
      rw [hfb col hcol cand hcand]
      exact Bool.false_ne_true
    unfold find_column
    rw [h1, find?_append_first _ _ _ h2]
    apply List.find?_cons_of_pos
    rw [List.any_eq_true]
    exact ⟨cand0, hcand0, hsub0⟩
  · intro cols cands hnoexact hfb
    have h1 : cands.find? (fun cand => cols.any (fun col => _normalize col == _normalize cand))
        = none := by
      apply find?_none_of_all
      intro cand hcand
      rw [List.any_eq_false]
      intro col hcol
      simp only [beq_iff_eq]
      exact hnoexact cand hcand col hcol
    have h2 : cols.find?
        (fun col => cands.any (fun cand => containsSub (_normalize col) (_normalize cand)))
        = none := by
      apply find?_none_of_all
      intro col hcol
      rw [List.any_eq_false]
      intro cand hcand
      rw [hfb col hcol cand hcand]
      exact Bool.false_ne_true
    unfold find_column
    rw [h1, h2]

theorem C7_find_column_witness :
    (∃ col, find_column ["frame time (ms)".data] ["FrameTime (ms)".data, "FrameTime".data]
        = some col ∧ col ∈ ["frame time (ms)".data] ∧
        _normalize col = _normalize "FrameTime (ms)".data) ∧
    find_column ["Mem/GPU Local".data] ["VRAM usage".data, "GPU Local".data]
      = some "Mem/GPU Local".data ∧
    find_column ["zzz".data] ["FrameTime".data] = none :=
  ⟨C7_find_column.1 ["frame time (ms)".data] [] ["FrameTime".data] "FrameTime (ms)".data
      (by simp) (by decide),
   C7_find_column.2.1 ["VRAM usage".data, "GPU Local".data] [] [] "Mem/GPU Local".data
      (by decide) (by simp) (by decide),
   C7_find_column.2.2 ["zzz".data] ["FrameTime".data] (by decide) (by decide)⟩

theorem digitChar_isDigit (d : Nat) (h : d < 10) : pyIsDigit (digitChar d) = true := by
  interval_cases d <;> decide

theorem natDigitsFuel_digits (fuel : Nat) :
    ∀ n, ∀ c ∈ natDigitsFuel fuel n, pyIsDigit c = true := by
  induction fuel with
  | zero => intro n c hc; cases hc
  | succ f ih =>
    intro n c hc
    rw [natDigitsFuel] at hc
    split at hc
    · rename_i hlt
      rcases List.mem_singleton.mp hc with rfl
      exact digitChar_isDigit n hlt
    · rcases List.mem_append.mp hc with hc | hc
      · exact ih (n / 10) c hc
      · rcases List.mem_singleton.mp hc with rfl
        exact digitChar_isDigit (n % 10) (Nat.mod_lt _ (by norm_num))

theorem dash_not_mem_pad3 (m : Nat) : '-' ∉ pad3 m := by
  intro hmem
  unfold pad3 at hmem
  rcases List.mem_append.mp hmem with h | h
  · exact absurd (List.eq_of_mem_replicate h) (by decide)
  · exact absurd (natDigitsFuel_digits _ _ '-' h) (by decide)

/-- C10: for a negative value whose result of rounding to three decimals has
magnitude below one, formatting under a non-integer label yields a string with
no minus sign: the sign is carried only by the integer part, and Python's
`int("-0")` is `0`, so the rendered string is `0,` followed by the three
decimal digits (e.g. `-0.5` renders as `"0,500"`). -/
theorem C10_negative_small_loses_sign (label : List Char) (v : ℚ)
    (hlab : integer_labels.contains label = false)
    (hneg : v < 0)
    (hsmall : |((roundHalfEven (v * 1000) : ℤ) : ℚ) / 1000| < 1) :
    format_number label (some v) =
      '0' :: ',' :: pad3 ((roundHalfEven (v * 1000)).natAbs % 1000) ∧
    '-' ∉ format_number label (some v) := by
  have habs : |((roundHalfEven (v * 1000) : ℤ) : ℚ)| < 1000 := by
    rw [abs_div] at hsmall
    have h1000 : |(1000 : ℚ)| = 1000 := by norm_num
    rw [h1000, div_lt_one (by norm_num)] at hsmall
    exact hsmall
  have hZ : |roundHalfEven (v * 1000)| < 1000 := by exact_mod_cast (by
    rwa [← Int.cast_abs] at habs : ((|roundHalfEven (v * 1000)| : ℤ) : ℚ) < 1000)
  have hnat : (roundHalfEven (v * 1000)).natAbs < 1000 := by
    rw [Int.abs_eq_natAbs] at hZ
    exact_mod_cast hZ
  have hdiv : (roundHalfEven (v * 1000)).natAbs / 1000 = 0 := Nat.div_eq_of_lt hnat
  have hfmt : format_number label (some v) = format_decimal v := by
    unfold format_number
    rw [hlab]
    rfl
  have hip : (if roundHalfEven (v * 1000) < 0 then
        -(((roundHalfEven (v * 1000)).natAbs / 1000 : Nat) : ℤ)
      else (((roundHalfEven (v * 1000)).natAbs / 1000 : Nat) : ℤ)) = 0 := by
    rw [hdiv]; split <;> simp
  have hfd : format_decimal v =
      '0' :: ',' :: pad3 ((roundHalfEven (v * 1000)).natAbs % 1000) := by
    simp only [format_decimal]
    rw [hip]
    rfl
  rw [hfmt, hfd]
  refine ⟨rfl, ?_⟩
  intro hmem
  rcases List.mem_cons.mp hmem with h | h
  · cases h
  · rcases List.mem_cons.mp h with h | h
    · cases h
    · exact dash_not_mem_pad3 _ h

theorem C10_negative_small_witness :
    format_number "Frametime Ø [ms]".data (some (-(1 : ℚ)/2)) = "0,500".data ∧
    '-' ∉ format_number "Frametime Ø [ms]".data (some (-(1 : ℚ)/2)) :=
  ⟨by with_unfolding_all decide,
   (C10_negative_small_loses_sign "Frametime Ø [ms]".data (-(1 : ℚ)/2) (by decide)
      (by norm_num) (by with_unfolding_all decide)).2⟩
